import Mathlib

/-!
Shallow embedding of the job-queue and archive-synchronization core of the
PyVDMS repository (`pyvdms/filesystem/waveforms2SDS.py`, `pyvdms/jobber/job.py`,
`pyvdms/jobber/queue.py`), together with theorems settling the frozen claims.

Conventions of the embedding:
* instants of time are seconds since the epoch (`Nat`); a calendar date
  (the `'%Y-%m-%d'` string of the source) is its day number `t / 86400`;
  lexicographic order on `'YYYY-MM-DD'` strings coincides with the numeric
  order of day numbers, so dates are compared as `Nat`;
* sampling rates and the force-request threshold are `Rat` (Python floats
  are used only in exact small-decimal arithmetic here);
* the external collaborators (the SDS archive client, the `nms_client`
  subprocess behind `Request.submit`, `sha256`, `humanfriendly`'s
  `format_size`/`parse_size`, `secrets.token_hex`, the wall clock) are
  passed in as explicit oracle arguments;
* exceptions are `Except String`, with the messages of the source.
-/

/-- Status codes of `pyvdms/jobber/job.py` (`_status_codes`). -/
inductive SC where
  | pending
  | check
  | ready
  | scheduled
  | processing
  | error
  | cancelled
  | completed
deriving DecidableEq, Repr

/-- The `Response` object of `pyvdms/filesystem/waveforms2SDS.py`.
`sizeBytes` is the `_num_bytes` attribute (an `Option` because the
constructor stores `size_bytes or None`), `time` is `_time`. -/
structure Response where
  success : Bool
  error : Option String
  time : Option Nat
  sizeBytes : Option Nat
  quotaExceeded : Bool
deriving DecidableEq, Repr

/-- `Response.__init__`: the `or`-coercions of the source.  `success`,
`error`, `time` and `quota_exceeded` are passed through (booleans and
objects keep their truthiness), while `size_bytes or None` turns `0`
into `None`. -/
def Response.make (success : Bool) (error : Option String) (time : Option Nat)
    (sizeBytes : Nat) (quotaExceeded : Bool) : Response :=
  { success := success, error := error, time := time,
    sizeBytes := if sizeBytes = 0 then none else some sizeBytes,
    quotaExceeded := quotaExceeded }

/-- The byte count reported by a `Response`, reading the stored `None`
back as zero (`Response.size` prints it as `'nothing'`). -/
def Response.bytesOrZero (r : Response) : Nat := r.sizeBytes.getD 0

/-- How one day of the `for i in range(days)` loop of `waveforms2SDS`
ends: it runs to the request-limit check at the bottom (`done`), or is
aborted by `raise SkipDay` / `except SkipDay: continue` (`skipDay`), or
by `except PermissionError` (`permErr`, the daily-quota path of
`Request.submit`), or by `except Exception` (`otherErr`). -/
inductive DayTag where
  | done
  | skipDay
  | permErr
  | otherErr
deriving DecidableEq, Repr

/-- Oracle summary of one day of the loop body: the bytes added to
`req_bytes` during the day (status request and waveform request sizes,
counted before the day ended) and how the day ended. -/
structure DayEv where
  bytes : Nat
  tag : DayTag
deriving DecidableEq, Repr

/-- The day loop of `waveforms2SDS` (lines 148-443): iterate the day
events, accumulating `req_bytes`; `i` is the loop index (day `i` is at
time `start + i * 86400`).  A `skipDay` day bypasses the request-limit
check at the bottom of the loop (`continue`); a `done` day reaches it:
`if request_limit and req_bytes >= request_limit` returns
`Response(success=True, time=time, size_bytes=req_bytes,
quota_exceeded=False)`.  `permErr` returns the quota response with
`quota_exceeded=True`; `otherErr` returns the failure response. -/
def waveLoopGo (limit start : Nat) : List DayEv → Nat → Nat → Response
  | [], _, acc => Response.make true none none acc false
  | ev :: rest, i, acc =>
    match ev.tag with
    | .skipDay => waveLoopGo limit start rest (i + 1) (acc + ev.bytes)
    | .permErr =>
      Response.make true none (some (start + i * 86400)) (acc + ev.bytes) true
    | .otherErr =>
      Response.make false none (some (start + i * 86400)) (acc + ev.bytes) false
    | .done =>
      if limit ≠ 0 ∧ limit ≤ acc + ev.bytes then
        Response.make true none (some (start + i * 86400)) (acc + ev.bytes) false
      else
        waveLoopGo limit start rest (i + 1) (acc + ev.bytes)

/-- Lines 98-101 of `waveforms2SDS`: `if force_request:` then
`if force_request_threshold < 0 or force_request_threshold >= 86400:
raise ValueError(...)`. Returns `true` when the `ValueError` is raised. -/
def thresholdInvalid (forceRequest : Bool) (threshold : Rat) : Bool :=
  forceRequest && (decide (threshold < 0) || decide ((86400 : Rat) ≤ threshold))

/-- `waveforms2SDS(station, channel, starttime, endtime, sds_root, ...)`.
`days = int((endtime - starttime) / 86400) + 1`; the threshold is
validated first (a `ValueError`); then the channel inventory is fetched
(`invOk` is `isinstance(inventory, pd.DataFrame)`; on failure the bytes
of the metadata call are not reported: `Response(success=False,
error='No station information returned.')`); then the day loop runs with
`req_bytes` already holding the metadata request size `mb`. -/
def waveforms2SDS (forceRequest : Bool) (threshold : Rat) (limit mb : Nat)
    (invOk : Bool) (start finish : Nat) (events : List DayEv) :
    Except String Response :=
  if thresholdInvalid forceRequest threshold then
    .error "Force request threshold should be a positive integer ranging from 0 to 86400"
  else if !invOk then
    .ok { success := false, error := some "No station information returned.",
          time := none, sizeBytes := none, quotaExceeded := false }
  else
    .ok (waveLoopGo limit start (events.take ((finish - start) / 86400 + 1)) 0 mb)

/-- `true` exactly when the `Except` computation raised. -/
def raisesErr {ε α : Type} : Except ε α → Bool
  | .error _ => true
  | .ok _ => false

/-- Sum of the per-day byte increments. -/
def sumBytes : List DayEv → Nat
  | [] => 0
  | ev :: rest => ev.bytes + sumBytes rest

/-- `noStop limit acc evs` holds when running the day loop through `evs`
from accumulated bytes `acc` never returns: every day is `done` without
reaching the request limit, or a `skipDay`. -/
def noStop (limit : Nat) : Nat → List DayEv → Bool
  | _, [] => true
  | acc, ev :: rest =>
    (match ev.tag with
     | .skipDay => true
     | .done => if limit ≠ 0 ∧ limit ≤ acc + ev.bytes then false else true
     | .permErr => false
     | .otherErr => false) && noStop limit (acc + ev.bytes) rest

theorem waveLoopGo_append (limit start : Nat) (evs : List DayEv) :
    ∀ (rest : List DayEv) (i acc : Nat), noStop limit acc evs = true →
    waveLoopGo limit start (evs ++ rest) i acc =
      waveLoopGo limit start rest (i + evs.length) (acc + sumBytes evs) := by
  induction evs with
  | nil => intro rest i acc _; simp [sumBytes]
  | cons ev evs ih =>
    intro rest i acc h
    simp only [noStop, Bool.and_eq_true] at h
    obtain ⟨h1, h2⟩ := h
    cases htag : ev.tag with
    | skipDay =>
      simp only [List.cons_append, waveLoopGo, htag, List.append_eq]
      rw [ih rest (i + 1) (acc + ev.bytes) h2]
      have e1 : i + 1 + evs.length = i + (ev :: evs).length := by
        simp [List.length_cons]; omega
      have e2 : acc + ev.bytes + sumBytes evs = acc + sumBytes (ev :: evs) := by
        simp [sumBytes]; omega
      rw [e1, e2]
    | done =>
      rw [htag] at h1
      simp only [List.cons_append, waveLoopGo, htag, List.append_eq]
      rw [if_neg]
      · rw [ih rest (i + 1) (acc + ev.bytes) h2]
        have e1 : i + 1 + evs.length = i + (ev :: evs).length := by
          simp [List.length_cons]; omega
        have e2 : acc + ev.bytes + sumBytes evs = acc + sumBytes (ev :: evs) := by
          simp [sumBytes]; omega
        rw [e1, e2]
      · intro hc
        rw [if_pos hc] at h1
        exact Bool.false_ne_true h1
    | permErr => rw [htag] at h1; exact absurd h1 Bool.false_ne_true
    | otherErr => rw [htag] at h1; exact absurd h1 Bool.false_ne_true

theorem take_days_split {α : Type} (days : Nat) (evs tail : List α) (ev : α)
    (h : evs.length < days) :
    (evs ++ ev :: tail).take days = evs ++ ev :: tail.take (days - evs.length - 1) := by
  rw [List.take_append_eq_append_take, List.take_of_length_le (le_of_lt h)]
  obtain ⟨m, hm⟩ : ∃ m, days - evs.length = m + 1 := ⟨days - evs.length - 1, by omega⟩
  rw [hm, List.take_succ_cons]
  norm_num

/-- C1 (amended).  With a request limit set, the run returns at the end of
the first day that runs to completion (reaching the bottom-of-loop check)
with accumulated bytes at or above the limit; later days are never
processed (the result does not depend on `tail`), and the outcome is
`Response(success=True, time=that day, size_bytes=accumulated bytes,
quota_exceeded=False)` — the source passes `quota_exceeded=False` on this
path, reserving `True` for the remote daily-quota `PermissionError`. -/
theorem c1_request_limit_pause (forceRequest : Bool) (threshold : Rat)
    (limit mb start finish : Nat) (evs tail : List DayEv) (ev : DayEv)
    (hthr : thresholdInvalid forceRequest threshold = false)
    (hlim : limit ≠ 0)
    (hdays : evs.length < (finish - start) / 86400 + 1)
    (hpre : noStop limit mb evs = true)
    (hev : ev.tag = DayTag.done)
    (hreach : limit ≤ mb + sumBytes evs + ev.bytes) :
    waveforms2SDS forceRequest threshold limit mb true start finish (evs ++ ev :: tail) =
      Except.ok (Response.make true none (some (start + evs.length * 86400))
        (mb + sumBytes evs + ev.bytes) false) := by
  unfold waveforms2SDS
  rw [hthr]
  simp only [Bool.false_eq_true, if_false, Bool.not_true, if_neg]
  rw [take_days_split _ _ _ _ hdays,
    waveLoopGo_append limit start evs _ 0 mb hpre]
  simp only [waveLoopGo, hev]
  rw [if_pos ⟨hlim, by omega⟩]
  have e1 : 0 + evs.length = evs.length := by omega
  rw [e1]

/-- C1 counterexample: Scenario C of the spec (limit `1_000_000`, transfers
`600_000` on day 1 and `500_000` on day 2).  The run does stop after day 2
with `pausedAtDay = day 2` and `bytesTransferred = 1_100_000`, but the
outcome carries `quota_exceeded = False`, not `True` as the claim states. -/
theorem c1_counterexample :
    waveforms2SDS true 300 1000000 0 true 0 172800
        [⟨600000, DayTag.done⟩, ⟨500000, DayTag.done⟩, ⟨77, DayTag.done⟩] =
      Except.ok (Response.make true none (some 86400) 1100000 false) ∧
    (Response.make true none (some 86400) 1100000 false).quotaExceeded = false := by
  exact ⟨rfl, rfl⟩

/-- C4 (amended).  `waveforms2SDS` raises the threshold `ValueError` exactly
when `force_request` is enabled and the threshold is outside `[0, 86400)`:
the source checks `force_request_threshold < 0 or force_request_threshold
>= 86400`, so `0` is accepted but `86400` itself is rejected, and with
`force_request=False` no threshold validation happens at all. -/
theorem c4_threshold_validation (forceRequest : Bool) (threshold : Rat)
    (limit mb : Nat) (invOk : Bool) (start finish : Nat) (events : List DayEv) :
    raisesErr (waveforms2SDS forceRequest threshold limit mb invOk start finish events) =
      (forceRequest && (decide (threshold < 0) || decide ((86400 : Rat) ≤ threshold))) := by
  unfold waveforms2SDS raisesErr thresholdInvalid
  by_cases h : (forceRequest && (decide (threshold < 0) || decide ((86400 : Rat) ≤ threshold))) = true
  · rw [if_pos h, h]
  · rw [if_neg h]
    rw [Bool.not_eq_true] at h
    rw [h]
    cases invOk <;> simp

/-- C4 counterexample: the threshold `86400` (inside the claim's inclusive
range `[0, 86400]`, and claimed valid) is rejected by the code, while the
out-of-range threshold `-1` is accepted when `force_request` is disabled. -/
theorem c4_counterexample :
    raisesErr (waveforms2SDS true 86400 0 0 true 0 0 []) = true ∧
    raisesErr (waveforms2SDS false (-1) 0 0 true 0 0 []) = false := by
  exact ⟨rfl, rfl⟩

/-- One row of the channel inventory `DataFrame` returned by the `Channel`
metadata request: station, channel, sampling rate, `on_date` and the
nullable `off_date` (day numbers standing for the date strings). -/
structure ChannelItem where
  station : String
  channel : String
  samplingRate : Rat
  onDate : Nat
  offDate : Option Nat
deriving DecidableEq, Repr

/-- The elementwise `inventory.off_date < tstr` comparison: a null
`off_date` compares as `False` (the missing-value semantics of the
comparison; a non-null one compares as dates). -/
def offDateLt : Option Nat → Nat → Bool
  | none, _ => false
  | some v, d => decide (v < d)

/-- Lines 161-164 of `waveforms2SDS`: `inventory[(inventory.on_date >=
tstr) & (inventory.off_date < tstr) | (inventory.off_date.isnull())]`,
with `&` binding tighter than `|`: keep a row iff
`(on_date >= day and off_date < day) or off_date is null`. -/
def inventoryAtTime (inv : List ChannelItem) (d : Nat) : List ChannelItem :=
  inv.filter (fun r => (decide (d ≤ r.onDate) && offDateLt r.offDate d) || r.offDate.isNone)

/-- Modelled from the spec's words, for comparison with `inventoryAtTime`:
a channel is in scope for day D iff `onDate <= D` and (`offDate` is null
or `offDate > D`). -/
def inScopeSpec (r : ChannelItem) (d : Nat) : Bool :=
  decide (r.onDate ≤ d) &&
    (match r.offDate with
     | none => true
     | some od => decide (d < od))

/-- C2 (divergence witness).  A channel active from day 10 to day 200 is
in scope for day 50 under the spec's rule, but the code's filter drops it
(its `on_date >= day` conjunct is inverted); conversely a channel with a
null `off_date` whose `on_date` lies in the future is out of scope for
day 5 under the spec's rule, but the code's filter keeps it (the
`isnull` disjunct ignores `on_date` entirely). -/
theorem c2_filter_divergence :
    inventoryAtTime [⟨"I06H1", "BDF", 20, 10, some 200⟩] 50 = [] ∧
    inScopeSpec ⟨"I06H1", "BDF", 20, 10, some 200⟩ 50 = true ∧
    inventoryAtTime [⟨"I06H1", "BDF", 20, 10, none⟩] 5 =
      [⟨"I06H1", "BDF", 20, 10, none⟩] ∧
    inScopeSpec ⟨"I06H1", "BDF", 20, 10, none⟩ 5 = false := by
  exact ⟨rfl, rfl, rfl, rfl⟩

/-- Per-item outcome of the archive-verification loop body of
`waveforms2SDS` (lines 170-320): the item is added to the day's request
batch (`request`), left alone (`skip`), or the whole day is aborted via
`raise SkipDay` (`skipDayAbort`). -/
inductive ItemOut where
  | request
  | skip
  | skipDayAbort
deriving DecidableEq, Repr

/-- The per-item decision of `waveforms2SDS` (lines 170-320) for one
channel `item` on one day, with the collaborators abstracted:
`availPos` is `avail[0] > 0` from `get_availability_percentage`;
`nptsSds` is `npts_in_sds`, the archived sample count after the
verify-archive step; `firstStatusAttempt` is `not requested_status`
(whether this item is the one performing the day's single `Chan_status`
request); `status` is `npts_in_nms`-relevant data — `some n` when the
status request returned a `DataFrame` in which this channel's positive
`samples` sum to `n`, `none` when it returned `None`.
Control flow of the source: `doRequest = not (avail[0] > 0)`; if archived,
request when `npts_in_sds < 10 * sampling_rate`; else when
`npts_in_sds < npts_in_day` (with `npts_in_day = int(sampling_rate *
86400)`) consult the status: a `None` status on the requesting item with
`force_request` disabled raises `SkipDay`; otherwise
`npts_in_nms = sum(...) if isinstance(status, DataFrame) else -1` and
`doRequest = npts_in_sds < npts_in_nms or (force_request and npts_in_day
- npts_in_sds > force_request_threshold * sampling_rate)`. -/
def itemDecision (forceRequest : Bool) (threshold rate : Rat) (availPos : Bool)
    (nptsSds : Int) (firstStatusAttempt : Bool) (status : Option Int) : ItemOut :=
  if !availPos then .request
  else
    let nptsDay : Int := ⌊rate * 86400⌋
    if (nptsSds : Rat) < 10 * rate then .request
    else if nptsSds < nptsDay then
      if firstStatusAttempt ∧ status = none ∧ !forceRequest then .skipDayAbort
      else
        let nptsNms : Int := match status with | some n => n | none => -1
        if nptsSds < nptsNms ∨
            (forceRequest ∧ ((nptsDay : Rat) - (nptsSds : Rat) > threshold * rate)) then
          .request
        else .skip
    else .skip

/-- Modelled from the spec's words, for comparison with `itemDecision`:
with remote status available, action is `request` iff `vdmsSeconds >
sdsSeconds` or `(vdmsSeconds - sdsSeconds) >= thresholdSeconds`,
otherwise `skip`. -/
def specGapDecision (vdmsSeconds sdsSeconds thresholdSeconds : Rat) : ItemOut :=
  if vdmsSeconds > sdsSeconds ∨ vdmsSeconds - sdsSeconds ≥ thresholdSeconds then
    .request
  else .skip

/-- C3 (amended).  For a partially archived channel-day whose remote
status lookup returned data: the code requests iff the remote sample
count strictly exceeds the archived sample count, or `force_request` is
enabled and the full-day shortfall `npts_in_day - npts_in_sds` strictly
exceeds `threshold * sampling_rate` — the gap is measured against the
whole day, not against the remote count, and the comparison is strict. -/
theorem c3_gap_rule (forceRequest : Bool) (threshold rate : Rat)
    (nptsSds nms : Int) (firstStatusAttempt : Bool)
    (h1 : (10 * rate : Rat) ≤ (nptsSds : Rat))
    (h2 : nptsSds < ⌊rate * 86400⌋) :
    itemDecision forceRequest threshold rate true nptsSds firstStatusAttempt (some nms) =
      (if nptsSds < nms ∨
          (forceRequest ∧ ((⌊rate * 86400⌋ : Rat) - (nptsSds : Rat) > threshold * rate)) then
        ItemOut.request
      else ItemOut.skip) := by
  unfold itemDecision
  rw [if_neg (by simp)]
  rw [if_neg (not_lt.mpr h1), if_pos h2, if_neg (by simp)]

/-- C3 witness: Scenario B of the spec — archived `25920` samples at rate
1 Hz, remote reports `26000`, threshold `300`: the action is `request`
because the remote count strictly exceeds the archived one. -/
theorem c3_gap_rule_witness :
    itemDecision true 300 1 true 25920 true (some 26000) = ItemOut.request := by
  rw [c3_gap_rule true 300 1 25920 26000 true (by norm_num) (by norm_num)]
  norm_num

/-- C3 counterexample.  Rate 1 Hz, archived `86100` samples, remote also
reports `86100`, threshold `200`, `force_request` enabled: the spec's
rule (`vdms > sds` or `vdms - sds >= threshold`) says `skip`, but the code
requests, because its second disjunct compares the full-day gap
`86400 - 86100 = 300` against the threshold, not the remote-local gap. -/
theorem c3_counterexample :
    itemDecision true 200 1 true 86100 true (some 86100) = ItemOut.request ∧
    specGapDecision 86100 86100 200 = ItemOut.skip := by
  constructor
  · rw [c3_gap_rule true 200 1 86100 86100 true (by norm_num) (by norm_num)]
    norm_num
  · unfold specGapDecision
    norm_num

/-- The `Job` object of `pyvdms/jobber/job.py`: `_t0`/`_t1` are the start
and end instants from `set_time_range`, `_t` the nullable cursor, and
`status` the append-only `(timestamp, code)` history (`_status`).
`requestLimit` is the internal byte count `_request_limit`. -/
structure Job where
  id : String
  t0 : Nat
  t1 : Nat
  t : Option Nat
  station : String
  channel : String
  sdsRoot : String
  priority : Int
  requestLimit : Nat
  user : String
  clientKwargs : List (String × String)
  status : List (String × SC)
deriving DecidableEq, Repr

/-- The persisted form of a Job (`Job.to_dict`): dates are stored as
`'%Y-%m-%d'` strings, represented by their day numbers; `requestLimit`
is the human-readable `format_size` string or null. -/
structure JobRecord where
  id : String
  starttime : Nat
  endtime : Nat
  time : Option Nat
  station : String
  channel : String
  sdsRoot : String
  priority : Int
  requestLimit : Option String
  user : String
  client : String
  clientKwargs : List (String × String)
  status : List (String × SC)
deriving DecidableEq, Repr

/-- `strftime('%Y-%m-%d')`: the calendar date of an instant. -/
def dateOf (t : Nat) : Nat := t / 86400

/-- `to_datetime` of a bare `'%Y-%m-%d'` string: midnight of that date. -/
def midnight (d : Nat) : Nat := d * 86400

/-- `Job._has_status(statuslist)`: whether any entry of the whole status
history carries the given code. -/
def hasCode (st : List (String × SC)) (c : SC) : Bool :=
  st.any (fun e => e.2 == c)

/-- `Job._check()`: append `JOB_CHECK`, then `JOB_READY` when the archive
path exists and the live metadata probe returns a `DataFrame`
(abstracted as `checkOk`), `JOB_ERROR` otherwise. -/
def runCheck (checkOk : Bool) (now : String) (st : List (String × SC)) :
    List (String × SC) :=
  if checkOk then st ++ [(now, SC.check), (now, SC.ready)]
  else st ++ [(now, SC.check), (now, SC.error)]

/-- The status part of `Job.__init__`: an empty status history gets
`JOB_PENDING` appended, and a history without `JOB_READY` triggers
`_check()`. -/
def initStatus (checkOk : Bool) (now : String) (st : List (String × SC)) :
    List (String × SC) :=
  let status1 := if st = [] then st ++ [(now, SC.pending)] else st
  if hasCode status1 SC.ready then status1 else runCheck checkOk now status1

/-- `Job.__init__` applied to a persisted record (`Job(**jj)`):
`set_time_range` parses the stored date strings (raising when the end
precedes the start); `priority or 1` and `request_limit or 0` are the
property setters (`parseSize` is `humanfriendly.parse_size`); `id or
token(5)` substitutes a generated token `gen` for a falsy id before the
length-10 check; `user or getpass.getuser()` substitutes `envUser`; the
status history is initialized by `initStatus`. -/
def jobFromRecord (parseSize : String → Nat) (checkOk : Bool)
    (envUser gen now : String) (r : JobRecord) : Except String Job :=
  if midnight r.endtime < midnight r.starttime then
    .error "End time should be after start time!"
  else
    let theId := if r.id = "" then gen else r.id
    if theId.length ≠ 10 then .error "Id should be of length 10."
    else
      .ok { id := theId, t0 := midnight r.starttime, t1 := midnight r.endtime,
            t := r.time.map midnight,
            station := r.station, channel := r.channel, sdsRoot := r.sdsRoot,
            priority := if r.priority = 0 then 1 else r.priority,
            requestLimit := match r.requestLimit with
              | none => 0
              | some s => parseSize s,
            user := if r.user = "" then envUser else r.user,
            clientKwargs := r.clientKwargs,
            status := initStatus checkOk now r.status }

/-- `Job.to_dict()`: serialize the Job; `fmt` is
`humanfriendly.format_size`, applied when `_request_limit > 0`. -/
def Job.toDict (fmt : Nat → String) (j : Job) : JobRecord :=
  { id := j.id, starttime := dateOf j.t0, endtime := dateOf j.t1,
    time := j.t.map dateOf, station := j.station, channel := j.channel,
    sdsRoot := j.sdsRoot, priority := j.priority,
    requestLimit := if 0 < j.requestLimit then some (fmt j.requestLimit) else none,
    user := j.user, client := "waveforms2SDS", clientKwargs := j.clientKwargs,
    status := j.status }

/-- `Job._set_status(status)`: append `(now, code)` to the history. -/
def Job.setStatus (now : String) (j : Job) (c : SC) : Job :=
  { j with status := j.status ++ [(now, c)] }

/-- `Job.pause(time)`: outside `[t0, t1]` the Job is set to `JOB_ERROR`
(cursor untouched); otherwise the cursor becomes the pause time and the
Job is re-`schedule()`d. -/
def Job.pause (now : String) (j : Job) (d : Nat) : Job :=
  if d < j.t0 ∨ j.t1 < d then j.setStatus now SC.error
  else Job.setStatus now { j with t := some d } SC.scheduled

/-- `Job.statuscode` of the source via `_status[-1][1]`: the code of the
last history entry. -/
def lastCode (j : Job) : Option SC :=
  j.status.getLast?.map Prod.snd

/-- The status/cursor update of `Job.process()` (lines 386-426) after the
`waveforms2SDS` call returned `resp`: first `self._t = self._t or
self._t0` and (when `update_status`) `JOB_PROCESSING` is appended; then
`success=False` yields `JOB_ERROR` with the cursor set to `resp.time`;
a completed response (`resp.time is None`) yields `JOB_COMPLETED` with
the cursor cleared; otherwise `pause(resp.time)`.  The returned boolean
is `resp.quota_remaining`. -/
def Job.processResp (now : String) (updateStatus : Bool) (j : Job)
    (resp : Response) : Job × Bool :=
  let j1 : Job := { j with t := some (j.t.getD j.t0) }
  let j2 : Job := if updateStatus then j1.setStatus now SC.processing else j1
  let j3 : Job :=
    if resp.success = false then
      { j2.setStatus now SC.error with t := resp.time }
    else
      match resp.time with
      | none => { j2.setStatus now SC.completed with t := none }
      | some d => j2.pause now d
  (j3, !resp.quotaExceeded)

/-- C6.  `process()` with a failed outcome yields `Error` with the cursor
at the failing day; a successful completed outcome yields `Completed`
with the cursor cleared; a successful paused outcome at day `D` yields
`Scheduled` with cursor `D` when `startDate <= D <= endDate` and `Error`
otherwise. -/
theorem c6_process_transitions (now : String) (j : Job) (resp : Response) :
    (∀ d, resp.success = false → resp.time = some d →
      lastCode (Job.processResp now true j resp).1 = some SC.error ∧
      (Job.processResp now true j resp).1.t = some d) ∧
    (resp.success = true → resp.time = none →
      lastCode (Job.processResp now true j resp).1 = some SC.completed ∧
      (Job.processResp now true j resp).1.t = none) ∧
    (∀ d, resp.success = true → resp.time = some d →
      ((j.t0 ≤ d ∧ d ≤ j.t1) →
        lastCode (Job.processResp now true j resp).1 = some SC.scheduled ∧
        (Job.processResp now true j resp).1.t = some d) ∧
      ((d < j.t0 ∨ j.t1 < d) →
        lastCode (Job.processResp now true j resp).1 = some SC.error)) := by
  refine ⟨?_, ?_, ?_⟩
  · intro d hs ht
    simp [Job.processResp, Job.setStatus, lastCode, hs, ht, List.getLast?_concat]
  · intro hs ht
    simp [Job.processResp, Job.setStatus, lastCode, hs, ht, List.getLast?_concat]
  · intro d hs ht
    constructor
    · intro hb
      have hn : ¬(d < j.t0 ∨ j.t1 < d) := by omega
      simp [Job.processResp, Job.pause, Job.setStatus, lastCode, hs, ht, hn,
        List.getLast?_concat]
    · intro hb
      simp [Job.processResp, Job.pause, Job.setStatus, lastCode, hs, ht, hb,
        List.getLast?_concat]

/-- C6 witness: a concrete Job paused at day 1 (inside its range) ends up
`Scheduled` with its cursor at that day. -/
theorem c6_process_transitions_witness :
    lastCode (Job.processResp "t9" true
      ⟨"abcdef1234", 0, 864000, none, "S", "C", "/r", 1, 0, "u", [],
        [("a", SC.scheduled)]⟩
      (Response.make true none (some 86400) 7 false)).1 = some SC.scheduled ∧
    (Job.processResp "t9" true
      ⟨"abcdef1234", 0, 864000, none, "S", "C", "/r", 1, 0, "u", [],
        [("a", SC.scheduled)]⟩
      (Response.make true none (some 86400) 7 false)).1.t = some 86400 := by
  have h := (c6_process_transitions "t9"
    ⟨"abcdef1234", 0, 864000, none, "S", "C", "/r", 1, 0, "u", [],
      [("a", SC.scheduled)]⟩
    (Response.make true none (some 86400) 7 false)).2.2 86400 rfl rfl
  exact h.1 ⟨by decide, by decide⟩

theorem Response.make_bytesOrZero (s : Bool) (e : Option String) (t : Option Nat)
    (b : Nat) (q : Bool) : (Response.make s e t b q).bytesOrZero = b := by
  unfold Response.make Response.bytesOrZero
  by_cases h : b = 0 <;> simp [h]

/-- C9.  When the remote collaborator raises the daily-quota
`PermissionError` mid-day, the run returns immediately (independently of
the remaining days in `tail`) with `Response(success=True, time=current
day, size_bytes=accumulated bytes, quota_exceeded=True)`, and
`Job.process()` on that outcome re-`Scheduled`s the Job with its cursor
at that day (not `Error`), returning `quota_remaining = False`. -/
theorem c9_quota_pause_reschedule (forceRequest : Bool) (threshold : Rat)
    (limit mb start finish : Nat) (evs tail : List DayEv) (ev : DayEv)
    (j : Job) (now : String)
    (hthr : thresholdInvalid forceRequest threshold = false)
    (hdays : evs.length < (finish - start) / 86400 + 1)
    (hpre : noStop limit mb evs = true)
    (hev : ev.tag = DayTag.permErr)
    (hlo : j.t0 ≤ start + evs.length * 86400)
    (hhi : start + evs.length * 86400 ≤ j.t1) :
    waveforms2SDS forceRequest threshold limit mb true start finish (evs ++ ev :: tail) =
      Except.ok (Response.make true none (some (start + evs.length * 86400))
        (mb + sumBytes evs + ev.bytes) true) ∧
    (Response.make true none (some (start + evs.length * 86400))
        (mb + sumBytes evs + ev.bytes) true).bytesOrZero =
      mb + sumBytes evs + ev.bytes ∧
    lastCode (Job.processResp now true j (Response.make true none
        (some (start + evs.length * 86400)) (mb + sumBytes evs + ev.bytes) true)).1 =
      some SC.scheduled ∧
    (Job.processResp now true j (Response.make true none
        (some (start + evs.length * 86400)) (mb + sumBytes evs + ev.bytes) true)).1.t =
      some (start + evs.length * 86400) ∧
    (Job.processResp now true j (Response.make true none
        (some (start + evs.length * 86400)) (mb + sumBytes evs + ev.bytes) true)).2 =
      false := by
  refine ⟨?_, Response.make_bytesOrZero _ _ _ _ _, ?_, ?_, ?_⟩
  · unfold waveforms2SDS
    rw [hthr]
    simp only [Bool.false_eq_true, if_false, Bool.not_true, if_neg]
    rw [take_days_split _ _ _ _ hdays,
      waveLoopGo_append limit start evs _ 0 mb hpre]
    simp only [waveLoopGo, hev]
    have e1 : 0 + evs.length = evs.length := by omega
    rw [e1]
  · have hn : ¬(start + evs.length * 86400 < j.t0 ∨ j.t1 < start + evs.length * 86400) := by
      omega
    simp [Job.processResp, Job.pause, Job.setStatus, lastCode, Response.make, hn,
      List.getLast?_concat]
  · have hn : ¬(start + evs.length * 86400 < j.t0 ∨ j.t1 < start + evs.length * 86400) := by
      omega
    simp [Job.processResp, Job.pause, Job.setStatus, Response.make, hn]
  · simp [Job.processResp, Response.make]

/-- C9 witness: a two-day run whose second day hits the daily quota; the
concrete Job is rescheduled with its cursor at day 1. -/
theorem c9_quota_pause_reschedule_witness :
    waveforms2SDS true 300 0 5 true 0 345600
        [⟨10, DayTag.done⟩, ⟨3, DayTag.permErr⟩] =
      Except.ok (Response.make true none (some 86400) 18 true) ∧
    lastCode (Job.processResp "ts" true
      ⟨"0123456789", 0, 864000, none, "S", "C", "/r", 1, 0, "u", [],
        [("a", SC.scheduled)]⟩
      (Response.make true none (some 86400) 18 true)).1 = some SC.scheduled := by
  have h := c9_quota_pause_reschedule true 300 0 5 0 345600
    [⟨10, DayTag.done⟩] [] ⟨3, DayTag.permErr⟩
    ⟨"0123456789", 0, 864000, none, "S", "C", "/r", 1, 0, "u", [],
      [("a", SC.scheduled)]⟩
    "ts" (by decide) (by decide) (by decide) rfl (by decide) (by decide)
  exact ⟨h.1, h.2.2.1⟩

/-- A hexadecimal character as produced by `token_hex` (lowercase). -/
def isHexChar (c : Char) : Bool :=
  c.isDigit || (decide ('a' ≤ c) && decide (c ≤ 'f'))

/-- Whether every character of the string is lowercase hexadecimal. -/
def isHexStr (s : String) : Bool := s.toList.all isHexChar

/-- `sum(c.isalpha() for c in t)` of the `token` helper. -/
def countAlpha (s : String) : Nat := s.toList.countP (fun c => c.isAlpha)

/-- The `token(n=5, min_alpha=2)` helper of `pyvdms/jobber/job.py`: keep
drawing `token_hex(5)` candidates until one has at least 2 alphabetic
characters.  The stream of `token_hex` draws is the oracle `cands`; the
loop returns the first acceptable candidate. -/
def tokenFromStream (cands : List String) : Option String :=
  cands.find? (fun c => decide (2 ≤ countAlpha c))

/-- C10.  Every Job built by the constructor has an id of length exactly
10: a successful construction yields a length-10 id, an explicit id of
any other length raises `ValueError`, and the generated token (given
that `token_hex(5)` draws are length-10 lowercase hex strings) is a
10-character hexadecimal token with at least 2 alphabetic characters. -/
theorem c10_id_invariant :
    (∀ (parseSize : String → Nat) (checkOk : Bool) (envUser gen now : String)
        (r : JobRecord) (j : Job),
      jobFromRecord parseSize checkOk envUser gen now r = Except.ok j →
      j.id.length = 10) ∧
    (∀ (parseSize : String → Nat) (checkOk : Bool) (envUser gen now : String)
        (r : JobRecord),
      r.id ≠ "" → r.id.length ≠ 10 →
      raisesErr (jobFromRecord parseSize checkOk envUser gen now r) = true) ∧
    (∀ (cands : List String) (t : String),
      (∀ c ∈ cands, c.length = 10 ∧ isHexStr c = true) →
      tokenFromStream cands = some t →
      t.length = 10 ∧ isHexStr t = true ∧ 2 ≤ countAlpha t) := by
  refine ⟨?_, ?_, ?_⟩
  · intro parseSize checkOk envUser gen now r j h
    unfold jobFromRecord at h
    by_cases h1 : midnight r.endtime < midnight r.starttime
    · rw [if_pos h1] at h; exact absurd h (by simp)
    · rw [if_neg h1] at h
      by_cases h2 : (if r.id = "" then gen else r.id).length ≠ 10
      · rw [if_pos h2] at h; exact absurd h (by simp)
      · rw [if_neg h2] at h
        simp only [Except.ok.injEq] at h
        rw [← h]
        simpa using h2
  · intro parseSize checkOk envUser gen now r hne hlen
    unfold jobFromRecord
    by_cases h1 : midnight r.endtime < midnight r.starttime
    · rw [if_pos h1]; rfl
    · rw [if_neg h1, if_pos (by simp [hne, hlen])]
      rfl
  · intro cands t hall hfind
    have hmem := List.mem_of_find?_eq_some hfind
    have hp := List.find?_some hfind
    have := hall t hmem
    refine ⟨this.1, this.2, ?_⟩
    exact of_decide_eq_true hp

/-- C10 witness: a record with a length-9 id is rejected, a record with a
length-10 id is accepted with that id, and the token stream starting with
`'00000000ab'` yields that hex token (2 alphabetic characters). -/
theorem c10_id_invariant_witness :
    raisesErr (jobFromRecord (fun _ => 0) true "u" "g" "n"
      ⟨"123456789", 0, 1, none, "S", "C", "/r", 1, none, "u", "waveforms2SDS",
        [], [("a", SC.ready)]⟩) = true ∧
    tokenFromStream ["00000000ab"] = some "00000000ab" ∧
    ("00000000ab".length = 10 ∧ isHexStr "00000000ab" = true ∧
      2 ≤ countAlpha "00000000ab") := by
  refine ⟨?_, ?_, ?_⟩
  · exact c10_id_invariant.2.1 (fun _ => 0) true "u" "g" "n"
      ⟨"123456789", 0, 1, none, "S", "C", "/r", 1, none, "u", "waveforms2SDS",
        [], [("a", SC.ready)]⟩ (by decide) (by decide)
  · rfl
  · exact c10_id_invariant.2.2 ["00000000ab"] "00000000ab" (by decide) rfl

/-- The argument passed to `Queue.find(id)`.  The source's `find` is
called both with an id string (`remove`) and — in `add` — with the whole
`Job` object. -/
inductive FindKey where
  | byId (s : String)
  | byJob (j : Job)

/-- The `job.id == id` comparison inside `Queue.find`: comparing the id
string with another string compares contents; comparing it with a `Job`
object is Python's default cross-type `==`, which is always `False`
(`Job` defines no `__eq__`). -/
def keyEq (jid : String) : FindKey → Bool
  | .byId s => jid == s
  | .byJob _ => false

/-- The `Queue` object of `pyvdms/jobber/queue.py`: the crontab
descriptor `_cron` and the job list `jobs`. -/
structure Queue where
  cron : Option String
  jobs : List Job
deriving DecidableEq, Repr

/-- `Queue.find(id)`: the first job whose id compares equal to the
argument, else `None`. -/
def Queue.find (q : Queue) (k : FindKey) : Option Job :=
  q.jobs.find? (fun j => keyEq j.id k)

/-- One insertion step of the stable descending sort: the new element
goes after every already-placed element of priority `>=` its own. -/
def insertDesc (x : Job) : List Job → List Job
  | [] => [x]
  | a :: as => if x.priority ≤ a.priority then a :: insertDesc x as else x :: a :: as

/-- `Queue.sort()`: `sorted(self.jobs, key=lambda job: int(job.priority),
reverse=True)` — a stable sort by priority, descending (equal priorities
keep their relative order). -/
def sortDesc (l : List Job) : List Job :=
  l.foldl (fun acc x => insertDesc x acc) []

/-- `Queue.add(job)` (lines 108-126): skip when `find(job)` returns a Job
(it never does — see `keyEq`), skip when the history lacks `JOB_READY`;
otherwise append `JOB_SCHEDULED` when missing, insert, and re-sort. -/
def Queue.addJob (q : Queue) (now : String) (job : Job) : Queue :=
  if (q.find (FindKey.byJob job)).isSome then q
  else if !(hasCode job.status SC.ready) then q
  else
    let job1 := if hasCode job.status SC.scheduled then job
      else { job with status := job.status ++ [(now, SC.scheduled)] }
    { q with jobs := sortDesc (q.jobs ++ [job1]) }

/-- The persisted lock file (`Queue.to_dict` written by `write_lock`):
crontab descriptor, content hash and serialized job list.  The hash
codomain `H` abstracts the sha256 hex digest of the canonical JSON dump
of the `jobs` array. -/
structure LockFile (H : Type) where
  crontab : Option String
  contentHash : H
  jobs : List JobRecord

/-- `Queue.write_lock`/`Queue.to_dict`: serialize all jobs in order and
store `content_hash = _hash()` over that list. -/
def Queue.toLockFile {H : Type} (hash : List JobRecord → H) (fmt : Nat → String)
    (q : Queue) : LockFile H :=
  { crontab := q.cron, contentHash := hash (q.jobs.map (Job.toDict fmt)),
    jobs := q.jobs.map (Job.toDict fmt) }

/-- The `for jj in jsonjobs['jobs']: self.add(Job(**jj))` loop of
`read_lock`: reconstruct each record and `add` it; a constructor error
propagates. -/
def readLockGo (parseSize : String → Nat) (checkOk : Bool)
    (envUser gen now : String) : Queue → List JobRecord → Except String Queue
  | q, [] => .ok q
  | q, r :: rs =>
    match jobFromRecord parseSize checkOk envUser gen now r with
    | .error e => .error e
    | .ok j => readLockGo parseSize checkOk envUser gen now (q.addJob now j) rs

/-- `Queue.read_lock` (lines 223-238): reset the queue, recompute
`_hash(jsonjobs['jobs'])` and compare with the stored `content_hash`
(raising the tamper `ValueError` on mismatch), restore the crontab and
re-`add` every stored job. -/
def Queue.readLock {H : Type} [DecidableEq H] (hash : List JobRecord → H)
    (parseSize : String → Nat) (checkOk : Bool) (envUser gen now : String)
    (f : LockFile H) : Except String Queue :=
  if f.contentHash ≠ hash f.jobs then
    .error "Content hash does not comply with the lockfile. Did someone modify the lockfile?"
  else
    readLockGo parseSize checkOk envUser gen now ⟨f.crontab, []⟩ f.jobs

/-- The value a Job takes after one persist/load round trip: dates
truncated to their calendar day, `priority or 1` and `request_limit`
re-parsed, `user or getpass.getuser()`; id, station, channel, sds_root,
kwargs and the status history unchanged. -/
def reloadJob (parseSize : String → Nat) (fmt : Nat → String) (envUser : String)
    (j : Job) : Job :=
  { j with
    t0 := midnight (dateOf j.t0),
    t1 := midnight (dateOf j.t1),
    t := (j.t.map dateOf).map midnight,
    priority := if j.priority = 0 then 1 else j.priority,
    requestLimit :=
      match (if 0 < j.requestLimit then some (fmt j.requestLimit) else none) with
      | none => 0
      | some s => parseSize s,
    user := if j.user = "" then envUser else j.user }

/-- C5 (divergence witness).  A queue holding a Ready+Scheduled job with
id `'aaaaaaaaaa'` accepts a second Ready job with the very same id:
`add` calls `find(job)` with the Job object, `job.id == <Job>` is always
`False`, so the duplicate guard never fires and the queue ends with two
jobs sharing one id. -/
theorem c5_duplicate_id_added :
    (Queue.addJob
      ⟨none, [⟨"aaaaaaaaaa", 0, 86400, none, "S", "C", "/r", 1, 0, "u", [],
        [("h1", SC.pending), ("h2", SC.check), ("h3", SC.ready), ("h4", SC.scheduled)]⟩]⟩
      "h8"
      ⟨"aaaaaaaaaa", 0, 86400, none, "S2", "C", "/r", 1, 0, "u", [],
        [("h5", SC.pending), ("h6", SC.check), ("h7", SC.ready)]⟩).jobs.map
        (fun j => j.id) = ["aaaaaaaaaa", "aaaaaaaaaa"] ∧
    ¬ List.Nodup ((Queue.addJob
      ⟨none, [⟨"aaaaaaaaaa", 0, 86400, none, "S", "C", "/r", 1, 0, "u", [],
        [("h1", SC.pending), ("h2", SC.check), ("h3", SC.ready), ("h4", SC.scheduled)]⟩]⟩
      "h8"
      ⟨"aaaaaaaaaa", 0, 86400, none, "S2", "C", "/r", 1, 0, "u", [],
        [("h5", SC.pending), ("h6", SC.check), ("h7", SC.ready)]⟩).jobs.map
        (fun j => j.id)) := by
  constructor
  · rfl
  · decide

theorem find_byJob_none (q : Queue) (j : Job) :
    q.find (FindKey.byJob j) = none := by
  unfold Queue.find
  rw [List.find?_eq_none]
  intro a _
  simp [keyEq]

theorem insertDesc_append (x : Job) (acc : List Job)
    (h : ∀ a ∈ acc, x.priority ≤ a.priority) :
    insertDesc x acc = acc ++ [x] := by
  induction acc with
  | nil => rfl
  | cons a as ih =>
    unfold insertDesc
    rw [if_pos (h a (List.mem_cons_self a as))]
    rw [ih (fun b hb => h b (List.mem_cons_of_mem a hb))]
    rfl

theorem foldl_insertDesc_sorted :
    ∀ (l acc : List Job),
    (acc ++ l).Pairwise (fun a b => b.priority ≤ a.priority) →
    l.foldl (fun ac x => insertDesc x ac) acc = acc ++ l := by
  intro l
  induction l with
  | nil => intro acc _; simp
  | cons x xs ih =>
    intro acc h
    have hparts := (List.pairwise_append).mp h
    have hx : ∀ a ∈ acc, x.priority ≤ a.priority := by
      intro a ha
      exact hparts.2.2 a ha x (List.mem_cons_self x xs)
    simp only [List.foldl_cons]
    rw [insertDesc_append x acc hx]
    have h2 : ((acc ++ [x]) ++ xs).Pairwise (fun a b => b.priority ≤ a.priority) := by
      rw [List.append_assoc]
      simpa using h
    rw [ih (acc ++ [x]) h2]
    simp

theorem sortDesc_eq_self (l : List Job)
    (h : l.Pairwise (fun a b => b.priority ≤ a.priority)) :
    sortDesc l = l := by
  unfold sortDesc
  have := foldl_insertDesc_sorted l [] (by simpa using h)
  simpa using this

theorem addJob_of_sorted (q : Queue) (now : String) (j : Job)
    (hready : hasCode j.status SC.ready = true)
    (hsched : hasCode j.status SC.scheduled = true)
    (hsort : (q.jobs ++ [j]).Pairwise (fun a b => b.priority ≤ a.priority)) :
    q.addJob now j = { q with jobs := q.jobs ++ [j] } := by
  unfold Queue.addJob
  rw [find_byJob_none]
  simp only [Option.isSome_none, Bool.false_eq_true, if_false, hready,
    Bool.not_true, hsched, if_true]
  rw [sortDesc_eq_self _ hsort]

theorem initStatus_of_ready (checkOk : Bool) (now : String)
    (st : List (String × SC)) (h : hasCode st SC.ready = true) :
    initStatus checkOk now st = st := by
  have hne : ¬ st = [] := by
    intro he
    rw [he] at h
    simp [hasCode] at h
  unfold initStatus
  rw [if_neg hne, if_pos h]

theorem jobFromRecord_toDict (parseSize : String → Nat) (fmt : Nat → String)
    (checkOk : Bool) (envUser gen now : String) (j : Job)
    (hid : j.id.length = 10)
    (hready : hasCode j.status SC.ready = true)
    (ht : j.t0 ≤ j.t1) :
    jobFromRecord parseSize checkOk envUser gen now (Job.toDict fmt j) =
      Except.ok (reloadJob parseSize fmt envUser j) := by
  have h1 : ¬ midnight (dateOf j.t1) < midnight (dateOf j.t0) := by
    unfold midnight dateOf
    have hd : j.t0 / 86400 ≤ j.t1 / 86400 := Nat.div_le_div_right ht
    exact not_lt.mpr (Nat.mul_le_mul_right 86400 hd)
  have hne : ¬ (j.id = "") := by
    intro he
    rw [he] at hid
    simp at hid
  unfold jobFromRecord
  dsimp only [Job.toDict]
  rw [if_neg h1]
  rw [if_neg hne]
  rw [if_neg (show ¬ (j.id.length ≠ 10) by simp [hid])]
  rw [initStatus_of_ready checkOk now j.status hready]
  rfl

theorem readLockGo_adds (parseSize : String → Nat) (fmt : Nat → String)
    (checkOk : Bool) (envUser gen now : String) :
    ∀ (js : List Job) (q : Queue),
    (∀ j ∈ js, j.id.length = 10 ∧ hasCode j.status SC.ready = true ∧
      hasCode j.status SC.scheduled = true ∧ j.t0 ≤ j.t1) →
    (q.jobs ++ js.map (reloadJob parseSize fmt envUser)).Pairwise
      (fun a b => b.priority ≤ a.priority) →
    readLockGo parseSize checkOk envUser gen now q (js.map (Job.toDict fmt)) =
      Except.ok ⟨q.cron, q.jobs ++ js.map (reloadJob parseSize fmt envUser)⟩ := by
  intro js
  induction js with
  | nil => intro q _ _; simp [readLockGo]
  | cons j js ih =>
    intro q hall hsort
    obtain ⟨hid, hready, hsched, ht⟩ := hall j (List.mem_cons_self j js)
    simp only [List.map_cons, readLockGo,
      jobFromRecord_toDict parseSize fmt checkOk envUser gen now j hid hready ht]
    have hready1 : hasCode (reloadJob parseSize fmt envUser j).status SC.ready = true := by
      simpa [reloadJob] using hready
    have hsched1 : hasCode (reloadJob parseSize fmt envUser j).status SC.scheduled = true := by
      simpa [reloadJob] using hsched
    have hsub : (q.jobs ++ [reloadJob parseSize fmt envUser j]).Sublist
        (q.jobs ++ reloadJob parseSize fmt envUser j :: js.map (reloadJob parseSize fmt envUser)) := by
      exact List.Sublist.append_left
        (List.cons_sublist_cons.mpr (List.nil_sublist _)) q.jobs
    have hsort1 : (q.jobs ++ [reloadJob parseSize fmt envUser j]).Pairwise
        (fun a b => b.priority ≤ a.priority) := by
      refine List.Pairwise.sublist hsub ?_
      simpa using hsort
    rw [addJob_of_sorted q now (reloadJob parseSize fmt envUser j) hready1 hsched1 hsort1]
    have hsort2 : (({ q with jobs := q.jobs ++ [reloadJob parseSize fmt envUser j] } : Queue).jobs
        ++ js.map (reloadJob parseSize fmt envUser)).Pairwise
        (fun a b => b.priority ≤ a.priority) := by
      simpa [List.append_assoc] using hsort
    rw [ih { q with jobs := q.jobs ++ [reloadJob parseSize fmt envUser j] }
      (fun x hx => hall x (List.mem_cons_of_mem j hx)) hsort2]
    simp

theorem prioOr1_mono (p q : Int) (h : p ≤ q) :
    (if p = 0 then 1 else p) ≤ (if q = 0 then 1 else q) := by
  split_ifs <;> omega

/-- C8 (amended).  Persisting a Queue whose jobs were all admitted by
`add` (hence sorted by descending priority, each with `JOB_READY` and
`JOB_SCHEDULED` in its history, a length-10 id and an ordered time range)
and loading the file back succeeds — the recomputed hash matches the
stored one — and yields the jobs in the same order with the same ids and
the same status histories; each cursor comes back truncated to its
calendar day (`strftime('%Y-%m-%d')` then `to_datetime`), so cursors are
identical exactly when they were midnight-aligned. -/
theorem c8_roundtrip {H : Type} [DecidableEq H] (hash : List JobRecord → H)
    (parseSize : String → Nat) (fmt : Nat → String) (checkOk : Bool)
    (envUser gen now : String) (q : Queue)
    (hsort : q.jobs.Pairwise (fun a b => b.priority ≤ a.priority))
    (hwf : ∀ j ∈ q.jobs, j.id.length = 10 ∧ hasCode j.status SC.ready = true ∧
      hasCode j.status SC.scheduled = true ∧ j.t0 ≤ j.t1) :
    Queue.readLock hash parseSize checkOk envUser gen now
        (Queue.toLockFile hash fmt q) =
      Except.ok ⟨q.cron, q.jobs.map (reloadJob parseSize fmt envUser)⟩ ∧
    (q.jobs.map (reloadJob parseSize fmt envUser)).map (fun j => j.id) =
      q.jobs.map (fun j => j.id) ∧
    (q.jobs.map (reloadJob parseSize fmt envUser)).map (fun j => j.status) =
      q.jobs.map (fun j => j.status) ∧
    (q.jobs.map (reloadJob parseSize fmt envUser)).map (fun j => j.t) =
      q.jobs.map (fun j => (j.t.map dateOf).map midnight) := by
  refine ⟨?_, ?_, ?_, ?_⟩
  · unfold Queue.readLock Queue.toLockFile
    rw [if_neg (by simp)]
    have hmono : ∀ a b : Job, b.priority ≤ a.priority →
        (reloadJob parseSize fmt envUser b).priority ≤
          (reloadJob parseSize fmt envUser a).priority := by
      intro a b h
      exact prioOr1_mono _ _ h
    have hsortm : ((⟨q.cron, []⟩ : Queue).jobs ++
        q.jobs.map (reloadJob parseSize fmt envUser)).Pairwise
        (fun a b => b.priority ≤ a.priority) := by
      simpa using List.Pairwise.map _ (fun a b h => hmono a b h) hsort
    exact readLockGo_adds parseSize fmt checkOk envUser gen now q.jobs
      ⟨q.cron, []⟩ hwf hsortm
  · rw [List.map_map]; rfl
  · rw [List.map_map]; rfl
  · rw [List.map_map]; rfl

/-- C8 witness: a concrete two-job queue (priorities 5 and 1, midnight
cursors) survives the persist/load round trip unchanged. -/
theorem c8_roundtrip_witness :
    Queue.readLock (fun l => l) (fun _ => 0) true "u" "g" "n"
        (Queue.toLockFile (fun l => l) (fun _ => "x")
          ⟨some "cron", [
            ⟨"aaaaabbbbb", 0, 432000, some 86400, "S1", "C1", "/r", 5, 0, "u", [],
              [("h1", SC.ready), ("h2", SC.scheduled)]⟩,
            ⟨"cccccddddd", 0, 432000, none, "S2", "C2", "/r", 1, 0, "u", [],
              [("h3", SC.ready), ("h4", SC.scheduled)]⟩]⟩) =
      Except.ok
        ⟨some "cron", [
          ⟨"aaaaabbbbb", 0, 432000, some 86400, "S1", "C1", "/r", 5, 0, "u", [],
            [("h1", SC.ready), ("h2", SC.scheduled)]⟩,
          ⟨"cccccddddd", 0, 432000, none, "S2", "C2", "/r", 1, 0, "u", [],
            [("h3", SC.ready), ("h4", SC.scheduled)]⟩]⟩ := by
  have h := c8_roundtrip (fun l => l) (fun _ => 0) (fun _ => "x") true "u" "g" "n"
    ⟨some "cron", [
      ⟨"aaaaabbbbb", 0, 432000, some 86400, "S1", "C1", "/r", 5, 0, "u", [],
        [("h1", SC.ready), ("h2", SC.scheduled)]⟩,
      ⟨"cccccddddd", 0, 432000, none, "S2", "C2", "/r", 1, 0, "u", [],
        [("h3", SC.ready), ("h4", SC.scheduled)]⟩]⟩
    (by decide) (by decide)
  exact h.1.trans (by rfl)

/-- C8 counterexample: a queue whose single job has the non-midnight
cursor `43200` (noon of day 0, e.g. a Job constructed with
`time='1970-01-01 12:00'`) loads back with cursor `0` — the persisted
form keeps only `strftime('%Y-%m-%d')` — so the loaded Queue is not
identical to the persisted one. -/
theorem c8_counterexample :
    Queue.readLock (fun l => l) (fun _ => 0) true "u" "g" "n"
        (Queue.toLockFile (fun l => l) (fun _ => "x")
          ⟨none, [⟨"abcdef1234", 0, 864000, some 43200, "S", "C", "/r", 1, 0, "u", [],
            [("h1", SC.ready), ("h2", SC.scheduled)]⟩]⟩) =
      Except.ok
        ⟨none, [⟨"abcdef1234", 0, 864000, some 0, "S", "C", "/r", 1, 0, "u", [],
          [("h1", SC.ready), ("h2", SC.scheduled)]⟩]⟩ ∧
    (⟨none, [⟨"abcdef1234", 0, 864000, some 0, "S", "C", "/r", 1, 0, "u", [],
        [("h1", SC.ready), ("h2", SC.scheduled)]⟩]⟩ : Queue) ≠
      ⟨none, [⟨"abcdef1234", 0, 864000, some 43200, "S", "C", "/r", 1, 0, "u", [],
        [("h1", SC.ready), ("h2", SC.scheduled)]⟩]⟩ := by
  constructor
  · rfl
  · decide

/-- C7.  A load succeeds only when the stored `content_hash` equals the
digest recomputed over the stored jobs list, and — under the standard
collision-free abstraction of sha256 (the digest function is injective) —
any change to the persisted jobs array that keeps the stored hash of a
written file makes `read_lock` raise the tamper error instead of
producing a Queue. -/
theorem c7_tamper_detection {H : Type} [DecidableEq H]
    (hash : List JobRecord → H) (parseSize : String → Nat) (checkOk : Bool)
    (envUser gen now : String) :
    (∀ (f : LockFile H) (q1 : Queue),
      Queue.readLock hash parseSize checkOk envUser gen now f = Except.ok q1 →
      f.contentHash = hash f.jobs) ∧
    (Function.Injective hash →
      ∀ (fmt : Nat → String) (q : Queue) (f1 : LockFile H),
      f1.jobs ≠ (Queue.toLockFile hash fmt q).jobs →
      f1.contentHash = (Queue.toLockFile hash fmt q).contentHash →
      Queue.readLock hash parseSize checkOk envUser gen now f1 =
        Except.error
          "Content hash does not comply with the lockfile. Did someone modify the lockfile?") := by
  constructor
  · intro f q1 h
    by_contra hne
    unfold Queue.readLock at h
    rw [if_pos hne] at h
    exact absurd h (by simp)
  · intro hinj fmt q f1 hjobs hhash
    unfold Queue.readLock
    rw [if_pos]
    intro he
    have : hash f1.jobs = hash (Queue.toLockFile hash fmt q).jobs := by
      rw [← he, hhash]
      rfl
    exact hjobs (hinj this)

/-- C7 witness: with the identity digest, a file holding one job record
but the hash of the empty written queue is rejected as tampered. -/
theorem c7_tamper_detection_witness :
    Queue.readLock (fun l => l) (fun _ => 0) true "u" "g" "n"
        (⟨none, [], [⟨"0123456789", 0, 1, none, "S", "C", "/r", 1, none, "u",
          "waveforms2SDS", [], []⟩]⟩ : LockFile (List JobRecord)) =
      Except.error
        "Content hash does not comply with the lockfile. Did someone modify the lockfile?" := by
  exact (c7_tamper_detection (fun l => l) (fun _ => 0) true "u" "g" "n").2
    (fun a b h => h) (fun _ => "x") ⟨none, []⟩
    ⟨none, [], [⟨"0123456789", 0, 1, none, "S", "C", "/r", 1, none, "u",
      "waveforms2SDS", [], []⟩]⟩
    (by decide) (by rfl)

/-- C1 witness: Scenario C through the amended theorem — the run pauses
after day 2 with 1,100,000 bytes accumulated and `quota_exceeded=False`,
and the result does not depend on the day-3 event. -/
theorem c1_request_limit_pause_witness :
    waveforms2SDS true 300 1000000 0 true 0 172800
        [⟨600000, DayTag.done⟩, ⟨500000, DayTag.done⟩, ⟨77, DayTag.done⟩] =
      Except.ok (Response.make true none (some 86400) 1100000 false) := by
  have h := c1_request_limit_pause true 300 1000000 0 0 172800
    [⟨600000, DayTag.done⟩] [⟨77, DayTag.done⟩] ⟨500000, DayTag.done⟩
    (by decide) (by decide) (by decide) (by decide) rfl (by decide)
  exact h
